import Mathlib

/-!
Verification development for the manosphere-report podcast-processing
pipeline.  The definitions below are shallow embeddings of the TypeScript
source files:

* `src/lib/timestamp.ts`      — word-to-segment grouping (`groupWordsIntoSegments`)
* `src/workflows/episode-processing.ts` — the durable episode pipeline
  (chunk planning, per-chunk transcription merge, transcript storage)
* `src/lib/server-fns.ts`     — admin server functions (`resetEpisode`,
  `processEpisode`, `generateWeeklyAnalysis`)

Times (seconds) are modelled as rationals, instants (milliseconds since
epoch) as integers, machine strings as Lean `String`.
-/

namespace ManosphereReport

/-- A word-level timestamp token, `interface Word` in `src/lib/timestamp.ts`:
`{ word: string, start: number, end: number }`. -/
structure Word where
  word : String
  start : ℚ
  «end» : ℚ
  deriving Repr, DecidableEq, Inhabited

/-- A transcript segment, `interface Segment` in `src/lib/timestamp.ts`:
`{ text, startTime, endTime, words }`. -/
structure Segment where
  text : String
  startTime : ℚ
  endTime : ℚ
  words : List Word
  deriving Repr, DecidableEq, Inhabited

/-- JavaScript `String.prototype.trim` on the character list: strip leading
and trailing whitespace. -/
def trimChars (cs : List Char) : List Char :=
  ((cs.dropWhile Char.isWhitespace).reverse.dropWhile Char.isWhitespace).reverse

/-- JavaScript `s.trim()`. -/
def jsTrim (s : String) : String :=
  String.mk (trimChars s.data)

/-- The test `/[.!?]$/.test(wordText)` applied to `words[i].word.trim()`:
the trimmed word's final character is `.`, `!` or `?`. -/
def endsWithSentencePunct (s : String) : Bool :=
  match (trimChars s.data).getLast? with
  | some c => c = '.' || c = '!' || c = '?'
  | none => false

/-- Building the pushed segment from the current word buffer, mirroring the
object literal pushed in `groupWordsIntoSegments`: text is the words joined
by single spaces then trimmed, start/end times come from the first/last
buffered word. -/
def mkSegment (cur : List Word) : Segment :=
  { text := jsTrim (String.intercalate " " (cur.map (·.word)))
    startTime := (cur.headD default).start
    endTime := (cur.getLastD default).«end»
    words := cur }

/-- The loop body of `groupWordsIntoSegments` (src/lib/timestamp.ts lines
28–45): push the word onto the running buffer, then close the buffer as a
segment when (trimmed word ends with sentence punctuation and the buffer has
at least 5 words) or the buffer has reached the target length or the word is
the last one. -/
def segLoop (target : ℕ) : List Word → List Word → List Segment
  | _, [] => []
  | cur, w :: rest =>
    let cur' := cur ++ [w]
    let endsWithPunctuation := endsWithSentencePunct w.word
    let atTarget := cur'.length ≥ target
    let isLast := rest.isEmpty
    if (endsWithPunctuation && decide (cur'.length ≥ 5)) || decide atTarget || isLast then
      mkSegment cur' :: segLoop target [] rest
    else
      segLoop target cur' rest

/-- `groupWordsIntoSegments(words, targetWordsPerSegment = 15)` from
`src/lib/timestamp.ts`. -/
def groupWordsIntoSegments (words : List Word) (targetWordsPerSegment : ℕ := 15) :
    List Segment :=
  if words.isEmpty then [] else segLoop targetWordsPerSegment [] words

/-- Close condition as worded by the specification: the buffer (with the
current word already appended) has at least 5 words and its last word ends
with `.`, `!` or `?`, or the buffer length has reached the target, or the
current word is the last of the input. -/
def specClose (target : ℕ) (buffer : List Word) (isLast : Bool) : Bool :=
  (decide (buffer.length ≥ 5) && endsWithSentencePunct (buffer.getLastD default).word)
    || decide (buffer.length ≥ target) || isLast

/-- Segmenter written from the specification's words: accumulate words into a
running buffer and close the buffer as a segment exactly when `specClose`
holds; a closed segment's text is its words joined by single spaces and
trimmed, its start time is its first word's start, its end time its last
word's end. -/
def specSegLoop (target : ℕ) : List Word → List Word → List Segment
  | _, [] => []
  | buffer, w :: rest =>
    let buffer' := buffer ++ [w]
    if specClose target buffer' rest.isEmpty then
      mkSegment buffer' :: specSegLoop target [] rest
    else
      specSegLoop target buffer' rest

/-- Specification-side segmenter: empty input yields the empty sequence,
otherwise run the buffer loop. -/
def specSegment (words : List Word) (target : ℕ) : List Segment :=
  if words.isEmpty then [] else specSegLoop target [] words

/-! ## Chunk planning (`chunk-audio` step, episode-processing.ts lines 74–101)

The workflow slices the downloaded audio buffer into ranges
`[offset, min (offset + CHUNK_SIZE) byteLength)` for
`offset = 0, CHUNK_SIZE, 2*CHUNK_SIZE, …` while `offset < byteLength`.
The loop is embedded with an explicit fuel argument (`size` iterations are
always enough when the chunk size is positive). -/

/-- `CHUNK_SIZE = 1 * 1024 * 1024` (1 MB) from the `chunk-audio` step. -/
def CHUNK_SIZE : ℕ := 1 * 1024 * 1024

/-- The chunking loop: starting at `offset`, emit the byte range
`[offset, min (offset + c) size)` and advance by `c` while `offset < size`.
Ranges are `(start, stop)` pairs with `stop` exclusive. -/
def chunkAudioGo (size c : ℕ) : ℕ → ℕ → List (ℕ × ℕ)
  | 0, _ => []
  | fuel + 1, offset =>
    if offset < size then
      (offset, min (offset + c) size) :: chunkAudioGo size c fuel (offset + c)
    else
      []

/-- The ordered list of byte ranges the `chunk-audio` step slices a blob of
`size` bytes into, with chunk size `c`. -/
def chunkRanges (size c : ℕ) : List (ℕ × ℕ) :=
  chunkAudioGo size c size 0

/-! ## Per-chunk transcription and the timestamp merge
(episode-processing.ts lines 112–177 and 237–241) -/

/-- One entry of `whisperResult.segments`: its `words` field may be absent
(`none`) or hold a word list, mirroring the `Array.isArray(segment.words)`
check. -/
structure WhisperSegment where
  words : Option (List Word)
  deriving Repr, DecidableEq

/-- The speech-to-text service response as consumed by the
`transcribe-chunk-i` step: `text` may be absent/empty, word tokens are nested
under `segments`, and `transcription_info?.duration` may be absent (`none`),
`null` (`none`) or any number. -/
structure WhisperResponse where
  text : Option String
  segments : List WhisperSegment
  duration : Option ℚ
  deriving Repr, DecidableEq

/-- Flattening of word tokens nested inside the response's segments
(lines 141–153): for each segment whose `words` is an array, push its
elements. -/
def flattenWhisperWords (r : WhisperResponse) : List Word :=
  (r.segments.map (fun s => s.words.getD [])).flatten

/-- JavaScript `x || 30` on the optional duration field: an absent or `null`
field gives `30`, and so does the (falsy) number `0`; any other number is
kept. -/
def jsOrThirty (d : Option ℚ) : ℚ :=
  match d with
  | none => 30
  | some v => if v = 0 then 30 else v

/-- The value returned by the `transcribe-chunk-i` step (lines 155–160):
`{ text: whisperResult.text || '', words, duration: …?.duration || 30 }`. -/
structure ChunkTranscription where
  text : String
  words : List Word
  duration : ℚ
  deriving Repr, DecidableEq

/-- The `transcribe-chunk-i` step's return value built from the service
response. -/
def transcribeResult (r : WhisperResponse) : ChunkTranscription :=
  { text := r.text.getD ""
    words := flattenWhisperWords r
    duration := jsOrThirty r.duration }

/-- Lines 165–169: shift a chunk's word timestamps by the cumulative offset. -/
def offsetWords (off : ℚ) (ws : List Word) : List Word :=
  ws.map (fun w => { w with start := w.start + off, «end» := w.«end» + off })

/-- The merge loop of `run` (lines 112–177): walk the chunk results carrying
`cumulativeOffset`, offset each chunk's words by the running offset, and add
the chunk's duration to the offset afterwards.  Returns the accumulated word
list and the final cumulative offset. -/
def mergeLoop : List ChunkTranscription → ℚ → List Word × ℚ
  | [], off => ([], off)
  | t :: rest, off =>
    let tail := mergeLoop rest (off + t.duration)
    (offsetWords off t.words ++ tail.1, tail.2)

/-- `allWords = transcriptions.flatMap((t) => t.words)` after the merge loop:
the full offset-corrected word list. -/
def mergedWords (ts : List ChunkTranscription) : List Word :=
  (mergeLoop ts 0).1

/-- The final `cumulativeOffset` after all chunks. -/
def finalCumulativeOffset (ts : List ChunkTranscription) : ℚ :=
  (mergeLoop ts 0).2

/-- Sum of the chunk durations. -/
def sumDur (ts : List ChunkTranscription) : ℚ :=
  (ts.map (·.duration)).sum

/-- JavaScript `Math.round`: round half toward positive infinity. -/
def jsRound (q : ℚ) : ℤ :=
  ⌊q + 1 / 2⌋

/-- `durationSeconds = Math.round(cumulativeOffset)` stored on the episode by
the `store-transcript` step (lines 237–241). -/
def storedDurationSeconds (ts : List ChunkTranscription) : ℤ :=
  jsRound (finalCumulativeOffset ts)

/-! ## Record-store model (`src/db/schema.ts`)

Rows are modelled at the level the code reads and writes them: columns that
hold JSON-encoded lists (`tags`, `themes`, `words`, `trending_topics`,
`episode_ids`, `key_quotes`) are typed at their decoded content, since the
code always writes them with `JSON.stringify` of such a value.  Timestamp
columns are milliseconds since epoch (`ℤ`). -/

/-- Row of `podcasts`. -/
structure PodcastRow where
  id : String
  title : String
  feedUrl : String
  active : Bool
  addedAt : ℤ
  deriving Repr, DecidableEq

/-- Row of `episodes`. -/
structure EpisodeRow where
  id : String
  podcastId : String
  title : String
  guid : String
  audioUrl : String
  r2Key : Option String
  publishedAt : ℤ
  durationSeconds : Option ℤ
  status : String
  workflowId : Option String
  errorMessage : Option String
  createdAt : ℤ
  deriving Repr, DecidableEq

/-- Row of `transcript_segments`. -/
structure SegmentRow where
  id : String
  episodeId : String
  segmentIndex : ℕ
  text : String
  startTime : ℚ
  endTime : ℚ
  words : List Word
  deriving Repr, DecidableEq

/-- Row of `episode_analyses`. -/
structure AnalysisRow where
  id : String
  episodeId : String
  summary : String
  tags : List String
  themes : List (String × String)
  sentiment : Option String
  keyQuotes : List String
  createdAt : ℤ
  deriving Repr, DecidableEq

/-- Row of `weekly_analyses`. -/
structure WeeklyRow where
  id : String
  weekStart : ℤ
  weekEnd : ℤ
  analysis : String
  trendingTopics : List String
  episodeIds : List String
  createdAt : ℤ
  deriving Repr, DecidableEq

/-- The D1 database state: one row list per table. -/
structure Db where
  podcasts : List PodcastRow
  episodes : List EpisodeRow
  transcriptSegments : List SegmentRow
  episodeAnalyses : List AnalysisRow
  weeklyAnalyses : List WeeklyRow
  deriving Repr, DecidableEq

/-- SQL `UPDATE episodes SET … WHERE id = episodeId` as a row map. -/
def updateEpisode (db : Db) (episodeId : String) (f : EpisodeRow → EpisodeRow) : Db :=
  { db with episodes := db.episodes.map (fun e => if e.id = episodeId then f e else e) }

/-! ## Admin server functions (`src/lib/server-fns.ts`) -/

/-- `resetEpisode` (server-fns.ts lines 252–274): delete the episode's
transcript segments, delete its analysis, and set the episode row to
`status='pending'` with `workflowId` and `errorMessage` cleared. -/
def resetEpisode (db : Db) (episodeId : String) : Db :=
  let db1 : Db :=
    { db with
      transcriptSegments :=
        db.transcriptSegments.filter (fun s => ¬ s.episodeId = episodeId) }
  let db2 : Db :=
    { db1 with
      episodeAnalyses :=
        db1.episodeAnalyses.filter (fun a => ¬ a.episodeId = episodeId) }
  updateEpisode db2 episodeId
    (fun e => { e with status := "pending", workflowId := none, errorMessage := none })

/-- What `processEpisode` returns and effects: the updated database, the
`workflowId` in the response, and how many workflow instances
`EPISODE_WORKFLOW.create` produced during the call. -/
structure ProcessResult where
  db : Db
  returnedWorkflowId : String
  instancesCreated : ℕ
  deriving Repr, DecidableEq

/-- `processEpisode` (server-fns.ts lines 276–297): unconditionally create a
new workflow instance (its fresh id is the `instanceId` argument, standing
for the id minted by `EPISODE_WORKFLOW.create`), then set the episode row's
`workflowId` to that id and its `status` to `'downloading'`.  The function
performs no check of any previously recorded instance id. -/
def processEpisode (db : Db) (episodeId _podcastId _audioUrl : String)
    (instanceId : String) : ProcessResult :=
  let db' := updateEpisode db episodeId
    (fun e => { e with workflowId := some instanceId, status := "downloading" })
  { db := db', returnedWorkflowId := instanceId, instancesCreated := 1 }

/-! ## Weekly analysis (`generateWeeklyAnalysis`, server-fns.ts lines 382–458) -/

/-- One element of the `inputs` array built for the weekly prompt
(`WeeklyAnalysisInput` in `src/lib/analysis.ts`). -/
structure WeeklyAnalysisInput where
  podcastTitle : String
  episodeTitle : String
  summary : String
  tags : List String
  themes : List (String × String)
  deriving Repr, DecidableEq

/-- `buildWeeklyAnalysisPrompt` from `src/lib/analysis.ts`. -/
def buildWeeklyAnalysisPrompt (eps : List WeeklyAnalysisInput) : String :=
  let episodeSummaries := String.intercalate "\n\n---\n\n"
    (eps.map (fun ep =>
      "## " ++ ep.podcastTitle ++ ": \"" ++ ep.episodeTitle ++ "\"\n\nSummary: "
        ++ ep.summary ++ "\n\nTags: " ++ String.intercalate ", " ep.tags
        ++ "\n\nThemes: "
        ++ String.intercalate "; "
            (ep.themes.map (fun t => t.1 ++ ": " ++ t.2))))
  "Here are the podcast episode analyses from this past week:\n\n" ++ episodeSummaries

/-- The value `generateWeeklyAnalysis` returns on success. -/
structure WeeklyGenResult where
  id : String
  analysis : String
  trendingTopics : List String
  episodeCount : ℕ
  deriving Repr, DecidableEq

deriving instance DecidableEq for Except

/-- Observable outcome of one `generateWeeklyAnalysis` invocation: the
result (or thrown error message), the database afterwards, and how many
text-generation calls were made. -/
structure WeeklyGenOutcome where
  result : Except String WeeklyGenResult
  db : Db
  aiCalls : ℕ
  deriving Repr, DecidableEq

/-- Seven days in milliseconds: `7 * 24 * 60 * 60 * 1000`. -/
def sevenDaysMs : ℤ := 7 * 24 * 60 * 60 * 1000

/-- The `recentAnalyses` query: `episode_analyses` inner-joined to
`episodes` on `episodes.id = episode_analyses.episodeId`, filtered to
`weekStart ≤ publishedAt ≤ weekEnd` and `status = 'complete'`. -/
def recentAnalyses (db : Db) (weekStart weekEnd : ℤ) :
    List (EpisodeRow × AnalysisRow) :=
  db.episodeAnalyses.flatMap (fun a =>
    (db.episodes.filter (fun e =>
      e.id = a.episodeId ∧ weekStart ≤ e.publishedAt ∧ e.publishedAt ≤ weekEnd
        ∧ e.status = "complete")).map (fun e => (e, a)))

/-- `generateWeeklyAnalysis` (server-fns.ts lines 382–458).  `now` is the
instant `new Date()` observed at entry; `newId` stands for the `nanoid()`
minted for the insert.  The text-generation call is an external service:
`parsedAnalysis`/`parsedTopics` stand for `parseWeeklyAnalysis(result.response
|| '')` applied to whatever the service replied.  `forceRefresh` models a
`{ force }` field a caller may send: the handler declares no input validator
and never reads its input, so the parameter is unused — the function has no
cache-consulting path at all.  Exactly one generation call is made whenever
the join is non-empty, and a new `weekly_analyses` row is always inserted on
that path. -/
def generateWeeklyAnalysis (db : Db) (now : ℤ) (_forceRefresh : Bool)
    (newId parsedAnalysis : String) (parsedTopics : List String) :
    WeeklyGenOutcome :=
  let weekEnd := now
  let weekStart := now - sevenDaysMs
  let recents := recentAnalyses db weekStart weekEnd
  if recents.isEmpty then
    { result := Except.error "No completed episodes in the past week to analyze"
      db := db
      aiCalls := 0 }
  else
    let inputs : List WeeklyAnalysisInput := recents.map (fun r =>
      { podcastTitle :=
          ((db.podcasts.find? (fun p => p.id = r.1.podcastId)).map (·.title)).getD
            "Unknown"
        episodeTitle := r.1.title
        summary := r.2.summary
        tags := r.2.tags
        themes := r.2.themes })
    let _prompt := buildWeeklyAnalysisPrompt inputs
    let newRow : WeeklyRow :=
      { id := newId
        weekStart := weekStart
        weekEnd := weekEnd
        analysis := parsedAnalysis
        trendingTopics := parsedTopics
        episodeIds := recents.map (fun r => r.1.id)
        createdAt := now }
    { result := Except.ok
        { id := newId
          analysis := parsedAnalysis
          trendingTopics := parsedTopics
          episodeCount := recents.length }
      db := { db with weeklyAnalyses := db.weeklyAnalyses ++ [newRow] }
      aiCalls := 1 }

/-! ## The episode-processing workflow (`src/workflows/episode-processing.ts`)

The pipeline is embedded as a state-passing function.  External effects are
inputs: the download `fetch` outcome, the per-chunk speech-to-text replies,
and the analysis reply (already run through `parseAnalysisResult`, which
never throws).  R2 objects are modelled by their byte length — the only
attribute of blob contents the pipeline itself inspects.  Each `step.do`
either succeeds with its value or fails after its retries are exhausted;
the embedding records the post-retry outcome. -/

/-- Does the current character start the split separator of
`text.split(/(?<=[.!?])\s+/)`: is it whitespace with the previously scanned
character (head of the reversed accumulator) a sentence-ending punctuation
mark? -/
def isSentenceBoundary (acc : List Char) (c : Char) : Bool :=
  match acc with
  | p :: _ => (p = '.' || p = '!' || p = '?') && c.isWhitespace
  | [] => false

/-- The scan of `text.split(/(?<=[.!?])\s+/)`: split at every maximal
whitespace run whose preceding character is `.`, `!` or `?` (used by the
`store-transcript` fallback path). -/
def sentenceSplitGo (acc : List Char) : List Char → List (List Char)
  | [] => [acc.reverse]
  | c :: rest =>
    if h : isSentenceBoundary acc c then
      acc.reverse :: sentenceSplitGo [] ((c :: rest).dropWhile Char.isWhitespace)
    else
      sentenceSplitGo (c :: acc) rest
termination_by l => l.length
decreasing_by
  · have hw : c.isWhitespace := by
      cases acc with
      | nil => exact absurd h (by simp [isSentenceBoundary])
      | cons p t =>
        simp only [isSentenceBoundary, Bool.and_eq_true] at h
        exact h.2
    simp only [List.dropWhile_cons, hw, if_true]
    exact Nat.lt_succ_of_le (List.dropWhile_sublist _).length_le
  · simp

/-- `splitSentences` on strings. -/
def splitSentences (s : String) : List String :=
  (sentenceSplitGo [] s.data).map (fun cs => String.mk cs)

/-- Fallback segment construction (episode-processing.ts lines 198–219):
for each chunk with non-blank text, split its text into sentences, give each
sentence an equal time slice of the chunk's duration, and advance the running
time offset. -/
def fallbackSegments : List ChunkTranscription → ℚ → List Segment
  | [], _ => []
  | t :: rest, off =>
    if jsTrim t.text = "" then fallbackSegments rest off
    else
      let sentences := (splitSentences t.text).filter (fun s => ¬ jsTrim s = "")
      let d : ℚ :=
        if sentences.length > 0 then t.duration / sentences.length else t.duration
      (sentences.enum.map (fun pr =>
        { text := jsTrim pr.2
          startTime := off + pr.1 * d
          endTime := off + (pr.1 + 1) * d
          words := ([] : List Word) }))
        ++ fallbackSegments rest (off + sentences.length * d)

/-- `interface AnalysisResult` from `src/lib/analysis.ts`; the value
`parseAnalysisResult` produces (it catches its own parse failures, so the
analyze step only fails when the service call itself fails). -/
structure AnalysisResult where
  summary : String
  tags : List String
  themes : List (String × String)
  sentiment : String
  keyQuotes : List String
  deriving Repr, DecidableEq

/-- `buildAnalysisPrompt` from `src/lib/analysis.ts`: truncate transcripts
over 50000 characters, appending a truncation marker. -/
def buildAnalysisPrompt (transcript : String) : String :=
  let maxChars : ℕ := 50000
  let truncated :=
    if transcript.data.length > maxChars then
      String.mk (transcript.data.take maxChars) ++ "\n\n[TRANSCRIPT TRUNCATED]"
    else transcript
  "Analyze this podcast episode transcript:\n\n" ++ truncated

/-- The R2 bucket, each object recorded by key and byte length. -/
structure R2State where
  objects : List (String × ℕ)
  deriving Repr, DecidableEq

/-- `AUDIO_BUCKET.get` (existence and size). -/
def R2State.get (r : R2State) (k : String) : Option ℕ :=
  (r.objects.find? (fun o => o.1 = k)).map (·.2)

/-- `AUDIO_BUCKET.put` (overwrite at key). -/
def R2State.put (r : R2State) (k : String) (v : ℕ) : R2State :=
  ⟨(k, v) :: r.objects.filter (fun o => ¬ o.1 = k)⟩

/-- `AUDIO_BUCKET.delete`. -/
def R2State.del (r : R2State) (k : String) : R2State :=
  ⟨r.objects.filter (fun o => ¬ o.1 = k)⟩

/-- The workflow payload (`EpisodePayload`). -/
structure EpisodePayload where
  episodeId : String
  podcastId : String
  audioUrl : String
  deriving Repr, DecidableEq

/-- External-world inputs of one pipeline run: the download outcome (`none`
models a non-2xx response, `some n` a body of `n` bytes), the per-chunk
speech-to-text replies (`none` models failure after retries), the parsed
analysis reply, the `nanoid()` stream, and the clock. -/
structure RunEnv where
  fetchBody : Option ℕ
  whisper : ℕ → Option WhisperResponse
  glmAnalysis : Option AnalysisResult
  nanoid : ℕ → String
  now : ℤ

/-- Mutable state a run threads: the database, the bucket, and counters of
external calls and minted ids. -/
structure RunState where
  db : Db
  r2 : R2State
  fetchCalls : ℕ
  sttCalls : ℕ
  genCalls : ℕ
  idsMinted : ℕ

/-- The deterministic audio blob key
`podcasts/podcastId/episodes/episodeId.mp3` (line 55). -/
def audioKey (podcastId episodeId : String) : String :=
  "podcasts/" ++ podcastId ++ "/episodes/" ++ episodeId ++ ".mp3"

/-- The chunk blob key (line 94). -/
def chunkBlobKey (podcastId episodeId : String) (i : ℕ) : String :=
  "podcasts/" ++ podcastId ++ "/episodes/" ++ episodeId ++ "/chunk_"
    ++ toString i ++ ".mp3"

/-- Step 1, `download-audio` (lines 42–71): set status `downloading`,
compute the deterministic key, fetch the source URL (unconditionally — the
step performs no existence check on the bucket), fail on a non-ok response,
otherwise store the body at the key and record it on the episode row. -/
def stepDownloadAudio (p : EpisodePayload) (env : RunEnv) (st : RunState) :
    RunState × Except String String :=
  let st := { st with
    db := updateEpisode st.db p.episodeId (fun e => { e with status := "downloading" }) }
  let key := audioKey p.podcastId p.episodeId
  let st := { st with fetchCalls := st.fetchCalls + 1 }
  match env.fetchBody with
  | none => (st, Except.error "Download failed")
  | some n =>
    let st := { st with r2 := st.r2.put key n }
    let st := { st with
      db := updateEpisode st.db p.episodeId (fun e => { e with r2Key := some key }) }
    (st, Except.ok key)

/-- Step 2, `chunk-audio` (lines 74–101): read the blob, slice it into
`CHUNK_SIZE` ranges, store each chunk, and return the chunk keys. -/
def stepChunkAudio (p : EpisodePayload) (st : RunState) (r2Key : String) :
    RunState × Except String (List String) :=
  match st.r2.get r2Key with
  | none => (st, Except.error "Audio not found in R2")
  | some size =>
    let ranges := (chunkRanges size CHUNK_SIZE).enum
    let keys := ranges.map (fun pr => chunkBlobKey p.podcastId p.episodeId pr.1)
    let st := { st with
      r2 := ranges.foldl
        (fun r pr => r.put (chunkBlobKey p.podcastId p.episodeId pr.1) (pr.2.2 - pr.2.1))
        st.r2 }
    (st, Except.ok keys)

/-- The `transcribe-chunk-i` loop (lines 119–162): for each chunk key in
order, read the chunk, call the speech-to-text service, and collect the
step's `{ text, words, duration }` value. -/
def transcribeChunks (env : RunEnv) : List String → ℕ → RunState →
    RunState × Except String (List ChunkTranscription)
  | [], _, st => (st, Except.ok [])
  | k :: rest, i, st =>
    match st.r2.get k with
    | none => (st, Except.error ("Chunk " ++ toString i ++ " not found"))
    | some _ =>
      let st := { st with sttCalls := st.sttCalls + 1 }
      match env.whisper i with
      | none => (st, Except.error "Transcription failed")
      | some resp =>
        match transcribeChunks env rest (i + 1) st with
        | (st2, Except.ok ts) => (st2, Except.ok (transcribeResult resp :: ts))
        | (st2, Except.error e) => (st2, Except.error e)

/-- Step 4, `store-transcript` (lines 180–245): merge the chunk
transcriptions (offsetting word timestamps via `mergeLoop`), group words into
segments (or fall back to sentence splitting when no word timestamps came
back), insert the segment rows in index order, and record the rounded total
duration on the episode. -/
def stepStoreTranscript (p : EpisodePayload) (env : RunEnv) (st : RunState)
    (rs : List ChunkTranscription) : RunState × Except String String :=
  let allWords := mergedWords rs
  let fullText := String.intercalate " " (rs.map (·.text))
  let segments :=
    if allWords.length > 0 then groupWordsIntoSegments allWords 15
    else fallbackSegments rs 0
  let st := segments.enum.foldl (fun s pr =>
    { s with
      idsMinted := s.idsMinted + 1
      db := { s.db with
        transcriptSegments := s.db.transcriptSegments ++
          [({ id := env.nanoid s.idsMinted
              episodeId := p.episodeId
              segmentIndex := pr.1
              text := pr.2.text
              startTime := pr.2.startTime
              endTime := pr.2.endTime
              words := pr.2.words } : SegmentRow)] } }) st
  let st := { st with
    db := updateEpisode st.db p.episodeId
      (fun e => { e with durationSeconds := some (jsRound (finalCumulativeOffset rs)) }) }
  (st, Except.ok fullText)

/-- Step 5, `analyze-transcript` (lines 256–276): build the prompt and call
the text-generation service; the reply is parsed by `parseAnalysisResult`
(which never throws), so the step fails only when the call fails. -/
def stepAnalyzeTranscript (env : RunEnv) (st : RunState) (fullTranscript : String) :
    RunState × Except String AnalysisResult :=
  let _prompt := buildAnalysisPrompt fullTranscript
  let st := { st with genCalls := st.genCalls + 1 }
  match env.glmAnalysis with
  | none => (st, Except.error "Analysis failed")
  | some a => (st, Except.ok a)

/-- Step 6, `store-analysis` (lines 279–296): insert the analysis row and
set status `complete`. -/
def stepStoreAnalysis (p : EpisodePayload) (env : RunEnv) (st : RunState)
    (a : AnalysisResult) : RunState :=
  let st := { st with
    idsMinted := st.idsMinted + 1
    db := { st.db with
      episodeAnalyses := st.db.episodeAnalyses ++
        [({ id := env.nanoid st.idsMinted
            episodeId := p.episodeId
            summary := a.summary
            tags := a.tags
            themes := a.themes
            sentiment := some a.sentiment
            keyQuotes := a.keyQuotes
            createdAt := env.now } : AnalysisRow)] } }
  { st with
    db := updateEpisode st.db p.episodeId (fun e => { e with status := "complete" }) }

/-- Step 7, `cleanup-chunks` (lines 299–303). -/
def stepCleanupChunks (st : RunState) (chunkKeys : List String) : RunState :=
  { st with r2 := chunkKeys.foldl (fun r k => r.del k) st.r2 }

/-- `EpisodeProcessingWorkflow.run` (lines 38–304): the step sequence, with
the status updates `transcribing` and `analyzing` between steps.  The method
body contains no try/catch: the first step failure aborts the run with that
error and no further database write happens. -/
def runWorkflow (p : EpisodePayload) (env : RunEnv) (st : RunState) :
    RunState × Except String Unit :=
  match stepDownloadAudio p env st with
  | (st, Except.error e) => (st, Except.error e)
  | (st, Except.ok r2Key) =>
    match stepChunkAudio p st r2Key with
    | (st, Except.error e) => (st, Except.error e)
    | (st, Except.ok chunkKeys) =>
      let st := { st with
        db := updateEpisode st.db p.episodeId
          (fun e => { e with status := "transcribing" }) }
      match transcribeChunks env chunkKeys 0 st with
      | (st, Except.error e) => (st, Except.error e)
      | (st, Except.ok rs) =>
        match stepStoreTranscript p env st rs with
        | (st, Except.error e) => (st, Except.error e)
        | (st, Except.ok fullTranscript) =>
          let st := { st with
            db := updateEpisode st.db p.episodeId
              (fun e => { e with status := "analyzing" }) }
          match stepAnalyzeTranscript env st fullTranscript with
          | (st, Except.error e) => (st, Except.error e)
          | (st, Except.ok analysis) =>
            let st := stepStoreAnalysis p env st analysis
            let st := stepCleanupChunks st chunkKeys
            (st, Except.ok ())

/-! # Theorems -/

/-! ## Segmenter lemmas -/

theorem mkSegment_words (l : List Word) : (mkSegment l).words = l := rfl

/-- One-step unfolding of the segmenter loop. -/
theorem segLoop_cons (target : ℕ) (buf : List Word) (w : Word) (rest : List Word) :
    segLoop target buf (w :: rest) =
      if (endsWithSentencePunct w.word && decide ((buf ++ [w]).length ≥ 5))
          || decide ((buf ++ [w]).length ≥ target) || rest.isEmpty then
        mkSegment (buf ++ [w]) :: segLoop target [] rest
      else segLoop target (buf ++ [w]) rest := rfl

/-- The word lists of the segments produced by `segLoop`, concatenated,
give back the buffer followed by the remaining input (for non-empty
remaining input). -/
theorem segLoop_join (target : ℕ) :
    ∀ (rest : List Word), rest ≠ [] →
      ∀ buf, ((segLoop target buf rest).map Segment.words).flatten = buf ++ rest := by
  intro rest
  induction rest with
  | nil => intro h; exact absurd rfl h
  | cons w rest' ih =>
    intro _ buf
    rw [segLoop_cons]
    cases rest' with
    | nil =>
      simp [segLoop, mkSegment_words]
    | cons r rs =>
      have hne : r :: rs ≠ [] := by simp
      simp only [List.isEmpty_cons]
      by_cases hc :
          ((endsWithSentencePunct w.word && decide ((buf ++ [w]).length ≥ 5))
            || decide ((buf ++ [w]).length ≥ target) || false) = true
      · rw [if_pos hc]
        simp only [List.map_cons, List.flatten_cons, mkSegment_words]
        rw [ih hne []]
        simp
      · rw [if_neg hc]
        rw [ih hne (buf ++ [w])]
        simp


/-- C6: For every word sequence, the concatenation of the word lists of the
segments returned by `groupWordsIntoSegments` equals the input sequence —
each segment's word list is a contiguous, order-preserving sub-run of the
input, the sub-runs are adjacent and in order, and their lengths sum to the
input length; the empty input yields the empty segment sequence. -/
theorem groupWordsIntoSegments_words_concat (ws : List Word) (t : ℕ) :
    ((groupWordsIntoSegments ws t).map Segment.words).flatten = ws ∧
    ((groupWordsIntoSegments ws t).map (fun s => s.words.length)).sum = ws.length ∧
    groupWordsIntoSegments ([] : List Word) t = [] := by
  have hjoin : ((groupWordsIntoSegments ws t).map Segment.words).flatten = ws := by
    cases ws with
    | nil => rfl
    | cons w rest =>
      simp only [groupWordsIntoSegments, List.isEmpty_cons, if_false,
        Bool.false_eq_true]
      exact segLoop_join t (w :: rest) (by simp) []
  refine ⟨hjoin, ?_, rfl⟩
  calc ((groupWordsIntoSegments ws t).map (fun s => s.words.length)).sum
      = (((groupWordsIntoSegments ws t).map Segment.words).map
          List.length).sum := by rw [List.map_map]; rfl
    _ = ((groupWordsIntoSegments ws t).map Segment.words).flatten.length := by
          rw [List.length_flatten]
    _ = ws.length := by rw [hjoin]

/-- One-step unfolding of the specification-side loop. -/
theorem specSegLoop_cons (target : ℕ) (buf : List Word) (w : Word) (rest : List Word) :
    specSegLoop target buf (w :: rest) =
      if specClose target (buf ++ [w]) rest.isEmpty then
        mkSegment (buf ++ [w]) :: specSegLoop target [] rest
      else specSegLoop target (buf ++ [w]) rest := rfl

/-- On a buffer ending in the word just pushed, the specification's close
condition coincides with the code's: the buffer's last word is that word. -/
theorem specClose_concat (target : ℕ) (buf : List Word) (w : Word) (b : Bool) :
    specClose target (buf ++ [w]) b =
      ((endsWithSentencePunct w.word && decide ((buf ++ [w]).length ≥ 5))
        || decide ((buf ++ [w]).length ≥ target) || b) := by
  unfold specClose
  rw [List.getLastD_concat, Bool.and_comm]

/-- The code's loop and the specification's loop agree everywhere. -/
theorem segLoop_eq_specSegLoop (target : ℕ) :
    ∀ (rest buf : List Word), segLoop target buf rest = specSegLoop target buf rest := by
  intro rest
  induction rest with
  | nil => intro buf; rfl
  | cons w rest' ih =>
    intro buf
    rw [segLoop_cons, specSegLoop_cons, specClose_concat]
    by_cases hc :
        ((endsWithSentencePunct w.word && decide ((buf ++ [w]).length ≥ 5))
          || decide ((buf ++ [w]).length ≥ target) || rest'.isEmpty) = true
    · rw [if_pos hc, if_pos hc, ih []]
    · rw [if_neg hc, if_neg hc, ih (buf ++ [w])]

/-- C7: the segmenter closes the current buffer as a segment exactly when
the buffer has at least 5 words and its last word ends with `.`, `!` or `?`,
or the buffer length reaches `targetWordsPerSegment`, or the word is the last
of the input; a closed segment's text is its words joined by single spaces
and trimmed, its start time its first word's start, its end time its last
word's end (this is `specSegment`, written from the specification's words);
and the single-word input `{word := "Hi.", start := 0, end := 0.5}` yields
exactly one segment containing just that word. -/
theorem groupWordsIntoSegments_matches_spec :
    (∀ (ws : List Word) (t : ℕ), groupWordsIntoSegments ws t = specSegment ws t) ∧
    groupWordsIntoSegments [{ word := "Hi.", start := 0, «end» := 1 / 2 }] 15 =
      [{ text := "Hi.", startTime := 0, endTime := 1 / 2,
         words := [{ word := "Hi.", start := 0, «end» := 1 / 2 }] }] := by
  constructor
  · intro ws t
    unfold groupWordsIntoSegments specSegment
    cases ws with
    | nil => rfl
    | cons w rest =>
      simp only [List.isEmpty_cons, if_false, Bool.false_eq_true]
      exact segLoop_eq_specSegLoop t (w :: rest) []
  · rfl

/-! ## Chunk-planner lemmas -/

/-- Closed form of the chunking loop, given enough fuel. -/
theorem chunkAudioGo_closed (c : ℕ) (hc : 0 < c) :
    ∀ (fuel size offset : ℕ), size - offset ≤ fuel * c →
      chunkAudioGo size c fuel offset =
        (List.range ((size - offset + c - 1) / c)).map
          (fun i => (offset + i * c, min (offset + (i + 1) * c) size)) := by
  intro fuel
  induction fuel with
  | zero =>
    intro size offset h
    have hso : size ≤ offset := by omega
    have hn : (size - offset + c - 1) / c = 0 := by
      apply Nat.div_eq_of_lt
      omega
    rw [hn]
    simp [chunkAudioGo, Nat.not_lt.mpr hso]
  | succ fuel ih =>
    intro size offset h
    by_cases hlt : offset < size
    · have hrec : size - (offset + c) ≤ fuel * c := by
        have : (fuel + 1) * c = fuel * c + c := by ring
        omega
      have hn : (size - offset + c - 1) / c = (size - (offset + c) + c - 1) / c + 1 := by
        by_cases hd : size - offset ≤ c
        · have h1 : (size - offset + c - 1) / c = 1 := by
            apply Nat.div_eq_of_lt_le
            · omega
            · omega
          have h2 : (size - (offset + c) + c - 1) / c = 0 := by
            apply Nat.div_eq_of_lt
            omega
          omega
        · have he : size - offset + c - 1 = (size - (offset + c) + c - 1) + c := by
            omega
          rw [he, Nat.add_div_right _ hc]
      simp only [chunkAudioGo, hlt, if_true]
      rw [ih size (offset + c) hrec, hn, List.range_succ_eq_map]
      simp only [List.map_cons, List.map_map, Nat.zero_mul, Nat.add_zero,
        Nat.zero_add, Nat.one_mul]
      congr 1
      apply List.map_congr_left
      intro i _
      simp only [Function.comp_apply, Nat.succ_eq_add_one]
      have e1 : offset + c + i * c = offset + (i + 1) * c := by ring
      have e2 : offset + c + (i + 1) * c = offset + (i + 1 + 1) * c := by ring
      rw [e1, e2]
    · have hso : size ≤ offset := by omega
      have hn : (size - offset + c - 1) / c = 0 := by
        apply Nat.div_eq_of_lt
        omega
      rw [hn]
      simp [chunkAudioGo, hlt]

/-- Closed form of `chunkRanges`. -/
theorem chunkRanges_closed (S C : ℕ) (hC : 0 < C) :
    chunkRanges S C =
      (List.range ((S + C - 1) / C)).map (fun i => (i * C, min ((i + 1) * C) S)) := by
  unfold chunkRanges
  rw [chunkAudioGo_closed C hC S S 0 (by
    calc S - 0 = S := by omega
      _ ≤ S * C := Nat.le_mul_of_pos_right S hC)]
  simp

/-- An index is below the ceiling `(S + C - 1) / C` exactly when its chunk
start `i * C` lies inside the blob. -/
theorem lt_ceil_iff (S C i : ℕ) (hC : 0 < C) :
    i < (S + C - 1) / C ↔ i * C < S := by
  have h2 : (i + 1) * C = i * C + C := by ring
  have key : i + 1 ≤ (S + C - 1) / C ↔ (i + 1) * C ≤ S + C - 1 :=
    Nat.le_div_iff_mul_le hC
  constructor
  · intro h
    have h1 : (i + 1) * C ≤ S + C - 1 := key.mp h
    omega
  · intro h
    have h1 : i + 1 ≤ (S + C - 1) / C := key.mpr (by omega)
    omega

/-- Length and elements of the chunk plan. -/
theorem chunkRanges_length (S C : ℕ) (hC : 0 < C) :
    (chunkRanges S C).length = (S + C - 1) / C := by
  rw [chunkRanges_closed S C hC]
  simp

theorem chunkRanges_get (S C : ℕ) (hC : 0 < C) (i : ℕ)
    (h : i < (chunkRanges S C).length) :
    (chunkRanges S C).get ⟨i, h⟩ = (i * C, min ((i + 1) * C) S) := by
  revert h
  rw [chunkRanges_closed S C hC]
  intro h
  simp only [List.get_eq_getElem, List.getElem_map, List.getElem_range]

/-- C5: for every blob size `S > 0` and chunk size `C > 0`, the chunk plan
has exactly `⌈S/C⌉ = (S + C - 1) / C` ranges; the `i`-th range is
`[i*C, min ((i+1)*C) S)`; every range is non-empty and at most `C` bytes
long; the first range starts at 0; consecutive ranges are contiguous;
earlier ranges end before later ranges start (no overlap); and the ranges
cover exactly the bytes `[0, S)`. -/
theorem chunkRanges_correct (S C : ℕ) (hS : 0 < S) (hC : 0 < C) :
    (chunkRanges S C).length = (S + C - 1) / C ∧
    (∀ i (h : i < (chunkRanges S C).length),
      (chunkRanges S C).get ⟨i, h⟩ = (i * C, min ((i + 1) * C) S)) ∧
    (∀ i (h : i < (chunkRanges S C).length),
      ((chunkRanges S C).get ⟨i, h⟩).1 < ((chunkRanges S C).get ⟨i, h⟩).2 ∧
      ((chunkRanges S C).get ⟨i, h⟩).2 - ((chunkRanges S C).get ⟨i, h⟩).1 ≤ C) ∧
    (∃ h0 : 0 < (chunkRanges S C).length, ((chunkRanges S C).get ⟨0, h0⟩).1 = 0) ∧
    (∀ i (h : i + 1 < (chunkRanges S C).length),
      ((chunkRanges S C).get ⟨i + 1, h⟩).1 =
        ((chunkRanges S C).get ⟨i, Nat.lt_of_succ_lt h⟩).2) ∧
    (∀ i j (hi : i < (chunkRanges S C).length) (hj : j < (chunkRanges S C).length),
      i < j →
        ((chunkRanges S C).get ⟨i, hi⟩).2 ≤ ((chunkRanges S C).get ⟨j, hj⟩).1) ∧
    (∀ b : ℕ, b < S ↔ ∃ i, ∃ h : i < (chunkRanges S C).length,
      ((chunkRanges S C).get ⟨i, h⟩).1 ≤ b ∧ b < ((chunkRanges S C).get ⟨i, h⟩).2) := by
  have hlen := chunkRanges_length S C hC
  have hget := chunkRanges_get S C hC
  refine ⟨hlen, hget, ?_, ?_, ?_, ?_, ?_⟩
  · intro i h
    rw [hget i h]
    have hi : i * C < S := (lt_ceil_iff S C i hC).mp (by omega)
    have h2 : (i + 1) * C = i * C + C := by ring
    refine ⟨?_, ?_⟩
    · show i * C < min ((i + 1) * C) S
      omega
    · show min ((i + 1) * C) S - i * C ≤ C
      omega
  · have h0 : 0 < (chunkRanges S C).length := by
      rw [hlen]
      exact (lt_ceil_iff S C 0 hC).mpr (by omega)
    refine ⟨h0, ?_⟩
    rw [hget 0 h0]
    show 0 * C = 0
    omega
  · intro i h
    rw [hget (i + 1) h, hget i (Nat.lt_of_succ_lt h)]
    have hi : (i + 1) * C < S := (lt_ceil_iff S C (i + 1) hC).mp (by omega)
    show (i + 1) * C = min ((i + 1) * C) S
    omega
  · intro i j hi hj hij
    rw [hget i hi, hget j hj]
    have hle : (i + 1) * C ≤ j * C := Nat.mul_le_mul_right C (by omega)
    show min ((i + 1) * C) S ≤ j * C
    omega
  · intro b
    constructor
    · intro hb
      have h1 : C * (b / C) + b % C = b := Nat.div_add_mod b C
      have h2 : b % C < C := Nat.mod_lt _ hC
      have h3 : b / C * C = C * (b / C) := Nat.mul_comm _ _
      have h4 : (b / C + 1) * C = b / C * C + C := by ring
      have hib : b / C < (chunkRanges S C).length := by
        rw [hlen]
        exact (lt_ceil_iff S C (b / C) hC).mpr (by omega)
      refine ⟨b / C, hib, ?_⟩
      rw [hget (b / C) hib]
      refine ⟨?_, ?_⟩
      · show b / C * C ≤ b
        omega
      · show b < min ((b / C + 1) * C) S
        omega
    · rintro ⟨i, h, hlo, hhi⟩
      rw [hget i h] at hhi
      have : b < min ((i + 1) * C) S := hhi
      omega

/-! ## Transcription-merge lemmas -/

theorem sumDur_nil : sumDur [] = 0 := rfl

theorem sumDur_cons (t : ChunkTranscription) (rest : List ChunkTranscription) :
    sumDur (t :: rest) = t.duration + sumDur rest := by
  simp [sumDur]

/-- The final cumulative offset is the starting offset plus the sum of all
chunk durations. -/
theorem mergeLoop_snd (ts : List ChunkTranscription) :
    ∀ off : ℚ, (mergeLoop ts off).2 = off + sumDur ts := by
  induction ts with
  | nil => intro off; simp [mergeLoop, sumDur_nil]
  | cons t rest ih =>
    intro off
    show (mergeLoop rest (off + t.duration)).2 = _
    rw [ih (off + t.duration), sumDur_cons]
    ring

theorem finalCumulativeOffset_eq_sumDur (ts : List ChunkTranscription) :
    finalCumulativeOffset ts = sumDur ts := by
  unfold finalCumulativeOffset
  rw [mergeLoop_snd ts 0]
  ring

/-- Closed form of the merge loop: chunk `i` contributes its words offset by
the starting offset plus the durations of the chunks before it. -/
theorem mergeLoop_fst (ts : List ChunkTranscription) :
    ∀ off : ℚ,
      (mergeLoop ts off).1 =
        (ts.enum.map
          (fun p => offsetWords (off + sumDur (ts.take p.1)) p.2.words)).flatten := by
  induction ts with
  | nil => intro off; rfl
  | cons t rest ih =>
    intro off
    show offsetWords off t.words ++ (mergeLoop rest (off + t.duration)).1 = _
    rw [ih (off + t.duration), List.enum_cons,
      ← List.map_fst_add_enum_eq_enumFrom rest 1]
    simp only [List.map_cons, List.flatten_cons, List.map_map, List.take_zero,
      sumDur_nil, add_zero]
    congr 1
    congr 1
    apply List.map_congr_left
    rintro ⟨i, a⟩ _
    simp only [Function.comp_apply, Prod.map_apply, id_eq]
    have ht : (t :: rest).take (i + 1) = t :: rest.take i := rfl
    rw [ht, sumDur_cons]
    have harith : off + t.duration + sumDur (rest.take i)
        = off + (t.duration + sumDur (rest.take i)) := by ring
    rw [harith]

/-- C8: every chunk's word timestamps are shifted by the sum of the
durations of all prior chunks before being appended to the merged word list;
in particular, for three chunks of durations 10, 12 and 8 whose raw words
start at 0, the merged second and third chunks are offset by exactly 10 and
22. -/
theorem mergedWords_offsets (ts : List ChunkTranscription) :
    mergedWords ts =
      (ts.enum.map (fun p => offsetWords (sumDur (ts.take p.1)) p.2.words)).flatten ∧
    mergedWords
      [{ text := "a", words := [{ word := "wa", start := 0, «end» := 1 }], duration := 10 },
       { text := "b", words := [{ word := "wb", start := 0, «end» := 1 }], duration := 12 },
       { text := "c", words := [{ word := "wc", start := 0, «end» := 1 }], duration := 8 }] =
      [{ word := "wa", start := 0, «end» := 1 },
       { word := "wb", start := 10, «end» := 11 },
       { word := "wc", start := 22, «end» := 23 }] := by
  constructor
  · unfold mergedWords
    rw [mergeLoop_fst ts 0]
    congr 1
    apply List.map_congr_left
    intro p _
    rw [zero_add]
  · show offsetWords 0 [{ word := "wa", start := 0, «end» := 1 }] ++
      (offsetWords (0 + 10) [{ word := "wb", start := 0, «end» := 1 }] ++
        (offsetWords (0 + 10 + 12) [{ word := "wc", start := 0, «end» := 1 }] ++ [])) = _
    simp only [offsetWords, List.map_cons, List.map_nil, List.cons_append,
      List.nil_append, List.append_nil]
    norm_num

/-- C10: a chunk whose speech-to-text response has no positive duration
field (absent/null, modelled `none`, or `0`) gets the default duration 30;
that substituted value is the chunk's entry in every duration prefix used as
the cumulative offset of later chunks, and the episode's stored duration is
the rounded sum of exactly these effective durations. -/
theorem missingDuration_defaults_to_thirty (rs : List WhisperResponse) (i : ℕ)
    (h : i < rs.length)
    (hd : (rs.get ⟨i, h⟩).duration = none ∨ (rs.get ⟨i, h⟩).duration = some 0) :
    (transcribeResult (rs.get ⟨i, h⟩)).duration = 30 ∧
    ((rs.map transcribeResult).map (fun t => t.duration))[i]? = some 30 ∧
    (∀ j, i < j → j ≤ rs.length →
      (((rs.map transcribeResult).take j).map (fun t => t.duration))[i]? = some 30) ∧
    storedDurationSeconds (rs.map transcribeResult) =
      jsRound (sumDur (rs.map transcribeResult)) := by
  have h30 : (transcribeResult (rs.get ⟨i, h⟩)).duration = 30 := by
    cases hd with
    | inl hnone =>
      show jsOrThirty (rs.get ⟨i, h⟩).duration = 30
      rw [hnone]
      rfl
    | inr hzero =>
      show jsOrThirty (rs.get ⟨i, h⟩).duration = 30
      rw [hzero]
      norm_num [jsOrThirty]
  have hmap : ((rs.map transcribeResult).map (fun t => t.duration))[i]? = some 30 := by
    have hi2 : i < ((rs.map transcribeResult).map (fun t => t.duration)).length := by
      simpa using h
    rw [List.getElem?_eq_getElem hi2]
    simp only [List.getElem_map]
    rw [← List.get_eq_getElem rs ⟨i, h⟩]
    rw [h30]
  refine ⟨h30, hmap, ?_, ?_⟩
  · intro j hij hjl
    rw [List.map_take, List.getElem?_take, if_pos hij]
    exact hmap
  · unfold storedDurationSeconds
    rw [finalCumulativeOffset_eq_sumDur]

/-! ## Reset and trigger -/

/-- C9: for every database state and episode id — whatever the episode's
current status, including `error` — `resetEpisode` removes exactly that
episode's transcript segments and analysis rows, rewrites that episode's row
to `status = "pending"` with `workflowId` and `errorMessage` cleared, and
leaves every other episode's rows, the podcasts table and the weekly
analyses untouched. -/
theorem resetEpisode_correct (db : Db) (eid : String) :
    (∀ s ∈ (resetEpisode db eid).transcriptSegments, s.episodeId ≠ eid) ∧
    (∀ a ∈ (resetEpisode db eid).episodeAnalyses, a.episodeId ≠ eid) ∧
    (∀ s ∈ db.transcriptSegments, s.episodeId ≠ eid →
      s ∈ (resetEpisode db eid).transcriptSegments) ∧
    (∀ s ∈ (resetEpisode db eid).transcriptSegments, s ∈ db.transcriptSegments) ∧
    (∀ a ∈ db.episodeAnalyses, a.episodeId ≠ eid →
      a ∈ (resetEpisode db eid).episodeAnalyses) ∧
    (∀ a ∈ (resetEpisode db eid).episodeAnalyses, a ∈ db.episodeAnalyses) ∧
    (∀ e ∈ db.episodes, e.id = eid →
      { e with status := "pending", workflowId := none, errorMessage := none }
        ∈ (resetEpisode db eid).episodes) ∧
    (∀ e ∈ db.episodes, e.id ≠ eid → e ∈ (resetEpisode db eid).episodes) ∧
    (∀ e ∈ (resetEpisode db eid).episodes, e.id ≠ eid → e ∈ db.episodes) ∧
    (resetEpisode db eid).podcasts = db.podcasts ∧
    (resetEpisode db eid).weeklyAnalyses = db.weeklyAnalyses := by
  refine ⟨?_, ?_, ?_, ?_, ?_, ?_, ?_, ?_, ?_, rfl, rfl⟩
  · intro s hs
    have := (List.mem_filter.mp hs).2
    simpa using this
  · intro a ha
    have := (List.mem_filter.mp ha).2
    simpa using this
  · intro s hs hne
    exact List.mem_filter.mpr ⟨hs, by simpa using hne⟩
  · intro s hs
    exact (List.mem_filter.mp hs).1
  · intro a ha hne
    exact List.mem_filter.mpr ⟨ha, by simpa using hne⟩
  · intro a ha
    exact (List.mem_filter.mp ha).1
  · intro e he heq
    refine List.mem_map.mpr ⟨e, he, ?_⟩
    rw [if_pos heq]
  · intro e he hne
    refine List.mem_map.mpr ⟨e, he, ?_⟩
    rw [if_neg hne]
  · intro e he hne
    obtain ⟨e0, he0, hmapped⟩ := List.mem_map.mp he
    by_cases h0 : e0.id = eid
    · exfalso
      apply hne
      rw [if_pos h0] at hmapped
      rw [← hmapped]
      exact h0
    · rw [if_neg h0] at hmapped
      rw [← hmapped]
      exact he0

/-- Concrete episode row for the C2 counterexample: an episode with a
recorded in-progress workflow instance. -/
def busyEpisode : EpisodeRow :=
  { id := "e1", podcastId := "p1", title := "Ep", guid := "g1",
    audioUrl := "http://audio", r2Key := none, publishedAt := 0,
    durationSeconds := none, status := "transcribing",
    workflowId := some "wf-old", errorMessage := none, createdAt := 0 }

/-- Database holding only `busyEpisode`. -/
def busyDb : Db :=
  { podcasts := [], episodes := [busyEpisode], transcriptSegments := [],
    episodeAnalyses := [], weeklyAnalyses := [] }

/-- C2 counterexample: invoking `processEpisode` for an episode that already
has a recorded in-progress instance id (`wf-old`) is NOT rejected: a second
workflow instance is created (`instancesCreated = 1`, not 0) and the episode
row is changed — its recorded instance id is overwritten with the new one
and its status forced to `downloading`. -/
theorem processEpisode_no_guard_counterexample :
    (processEpisode busyDb "e1" "p1" "http://audio" "wf-new").instancesCreated = 1 ∧
    (processEpisode busyDb "e1" "p1" "http://audio" "wf-new").returnedWorkflowId
      = "wf-new" ∧
    (processEpisode busyDb "e1" "p1" "http://audio" "wf-new").db.episodes =
      [{ busyEpisode with workflowId := some "wf-new", status := "downloading" }] ∧
    busyEpisode.workflowId = some "wf-old" ∧
    busyEpisode.status = "transcribing" := by
  refine ⟨rfl, rfl, ?_, rfl, rfl⟩
  decide

/-- C2 amended: `processEpisode` performs no duplicate-instance check —
for every database state and episode, it creates exactly one new workflow
instance and rewrites the episode row's `workflowId` to the new instance id
with status `downloading`, even when an in-progress instance id is already
recorded (the admin UI merely hides the button for episodes that are not
`pending` or `error`). -/
theorem processEpisode_always_creates (db : Db)
    (episodeId podcastId audioUrl instanceId : String) :
    (processEpisode db episodeId podcastId audioUrl instanceId).instancesCreated = 1 ∧
    (processEpisode db episodeId podcastId audioUrl instanceId).returnedWorkflowId
      = instanceId ∧
    (∀ e ∈ db.episodes, e.id = episodeId →
      { e with workflowId := some instanceId, status := "downloading" }
        ∈ (processEpisode db episodeId podcastId audioUrl instanceId).db.episodes) ∧
    (∀ e ∈ db.episodes, e.id ≠ episodeId →
      e ∈ (processEpisode db episodeId podcastId audioUrl instanceId).db.episodes) := by
  refine ⟨rfl, rfl, ?_, ?_⟩
  · intro e he heq
    refine List.mem_map.mpr ⟨e, he, ?_⟩
    rw [if_pos heq]
  · intro e he hne
    refine List.mem_map.mpr ⟨e, he, ?_⟩
    rw [if_neg hne]

/-- Witness for the amended C2 statement at a concrete input. -/
theorem processEpisode_always_creates_witness :
    (processEpisode busyDb "e1" "p1" "http://audio" "wf-new").instancesCreated = 1 ∧
    { busyEpisode with workflowId := some "wf-new", status := "downloading" }
      ∈ (processEpisode busyDb "e1" "p1" "http://audio" "wf-new").db.episodes := by
  have h := processEpisode_always_creates busyDb "e1" "p1" "http://audio" "wf-new"
  exact ⟨h.1, h.2.2.1 busyEpisode (by decide) rfl⟩

/-! ## Weekly analysis: the missing cache path -/

/-- A fixed observation instant for the weekly-analysis scenario. -/
def nowMs : ℤ := 1700000000000

/-- A stored `weekly_analyses` row created one hour before `nowMs` — well
within a 24-hour cache window. -/
def cachedWeekly : WeeklyRow :=
  { id := "w0", weekStart := nowMs - 8 * 24 * 60 * 60 * 1000,
    weekEnd := nowMs - 3600000, analysis := "old analysis",
    trendingTopics := ["old"], episodeIds := ["e1"],
    createdAt := nowMs - 3600000 }

def weeklyPodcast : PodcastRow :=
  { id := "p1", title := "Pod", feedUrl := "http://feed", active := true,
    addedAt := 0 }

/-- A completed episode published inside the trailing week. -/
def weeklyEpisode : EpisodeRow :=
  { id := "e1", podcastId := "p1", title := "Ep", guid := "g1",
    audioUrl := "http://audio", r2Key := none, publishedAt := nowMs - 1000,
    durationSeconds := some 60, status := "complete", workflowId := none,
    errorMessage := none, createdAt := 0 }

def weeklyEpisodeAnalysis : AnalysisRow :=
  { id := "a1", episodeId := "e1", summary := "sum", tags := ["tag"],
    themes := [("th", "d")], sentiment := some "calm", keyQuotes := [],
    createdAt := nowMs - 2000 }

/-- Database state with a fresh (1-hour-old) cached weekly analysis and one
completed episode in the window. -/
def cachedDb : Db :=
  { podcasts := [weeklyPodcast], episodes := [weeklyEpisode],
    transcriptSegments := [], episodeAnalyses := [weeklyEpisodeAnalysis],
    weeklyAnalyses := [cachedWeekly] }

/-- C1 (code bug): a `weekly_analyses` record created one hour ago exists,
yet invoking `generateWeeklyAnalysis` without a forced refresh still makes
one text-generation call and inserts a brand-new record — the function has
no cache-consulting path, contradicting the repository's README
("cached for 24h unless force: true") and the admin page that reads a
`cached` flag from its response.  The outcome is also bit-for-bit identical
under `forceRefresh = true` and `false`, showing the flag is ignored. -/
theorem generateWeeklyAnalysis_ignores_cache :
    nowMs - cachedWeekly.createdAt = 3600000 ∧
    (generateWeeklyAnalysis cachedDb nowMs false "w1" "NEW" ["topic"]).aiCalls = 1 ∧
    (generateWeeklyAnalysis cachedDb nowMs false "w1" "NEW" ["topic"]).db.weeklyAnalyses.length
      = 2 ∧
    (generateWeeklyAnalysis cachedDb nowMs false "w1" "NEW" ["topic"]).result =
      Except.ok
        { id := "w1", analysis := "NEW", trendingTopics := ["topic"],
          episodeCount := 1 } ∧
    generateWeeklyAnalysis cachedDb nowMs true "w1" "NEW" ["topic"] =
      generateWeeklyAnalysis cachedDb nowMs false "w1" "NEW" ["topic"] := by
  refine ⟨by decide, ?_, ?_, ?_, rfl⟩
  · decide
  · decide
  · decide

/-! ## Workflow failure handling and the download step -/

/-- An episode about to be processed; it starts `pending` with no error
message recorded. -/
def pendingEpisode : EpisodeRow :=
  { id := "e1", podcastId := "p1", title := "Ep", guid := "g1",
    audioUrl := "http://audio", r2Key := none, publishedAt := 0,
    durationSeconds := none, status := "pending", workflowId := some "wf1",
    errorMessage := none, createdAt := 0 }

def runDb : Db :=
  { podcasts := [], episodes := [pendingEpisode], transcriptSegments := [],
    episodeAnalyses := [], weeklyAnalyses := [] }

def initialRunState : RunState :=
  { db := runDb, r2 := ⟨[]⟩, fetchCalls := 0, sttCalls := 0, genCalls := 0,
    idsMinted := 0 }

/-- Environment in which the audio download responds non-ok on every
attempt (retries exhausted). -/
def failingFetchEnv : RunEnv :=
  { fetchBody := none, whisper := fun _ => none, glmAnalysis := none,
    nanoid := fun n => "n" ++ toString n, now := 0 }

/-- Environment in which the download succeeds (100-byte body) but every
speech-to-text call fails after retries. -/
def failingWhisperEnv : RunEnv :=
  { fetchBody := some 100, whisper := fun _ => none, glmAnalysis := none,
    nanoid := fun n => "n" ++ toString n, now := 0 }

/-- C3 (code bug): `EpisodeProcessingWorkflow.run` has no try/catch — when a
step fails after its retries are exhausted the failure escapes the run and
the episode is left at the intermediate status the pipeline last wrote
(`downloading` after a failed download, `transcribing` after a failed
transcription), with `errorMessage` still `none`; no code path ever sets
`status = "error"`. -/
theorem runWorkflow_failure_leaves_intermediate_status :
    (runWorkflow ⟨"e1", "p1", "http://audio"⟩ failingFetchEnv initialRunState).2 =
      Except.error "Download failed" ∧
    (runWorkflow ⟨"e1", "p1", "http://audio"⟩ failingFetchEnv initialRunState).1.db.episodes =
      [{ pendingEpisode with status := "downloading" }] ∧
    (runWorkflow ⟨"e1", "p1", "http://audio"⟩ failingWhisperEnv initialRunState).2 =
      Except.error "Transcription failed" ∧
    (runWorkflow ⟨"e1", "p1", "http://audio"⟩ failingWhisperEnv initialRunState).1.db.episodes =
      [{ pendingEpisode with
          status := "transcribing"
          r2Key := some (audioKey "p1" "e1") }] := by
  refine ⟨rfl, by decide, rfl, by decide⟩

/-- Environment whose fetch would deliver a 999-byte body. -/
def refetchEnv : RunEnv :=
  { fetchBody := some 999, whisper := fun _ => none, glmAnalysis := none,
    nanoid := fun n => "n" ++ toString n, now := 0 }

/-- Run state in which the audio blob ALREADY exists (500 bytes) at the
deterministic key for episode `e1`. -/
def blobPresentState : RunState :=
  { db := runDb, r2 := ⟨[(audioKey "p1" "e1", 500)]⟩, fetchCalls := 0,
    sttCalls := 0, genCalls := 0, idsMinted := 0 }

/-- C4 counterexample: with the blob already present at the deterministic
key, the download step still performs one fetch call (the claim says zero)
and overwrites the existing blob (500 bytes becomes 999). -/
theorem stepDownloadAudio_refetches_counterexample :
    blobPresentState.r2.get (audioKey "p1" "e1") = some 500 ∧
    (stepDownloadAudio ⟨"e1", "p1", "http://audio"⟩ refetchEnv blobPresentState).1.fetchCalls
      = 1 ∧
    (stepDownloadAudio ⟨"e1", "p1", "http://audio"⟩ refetchEnv blobPresentState).2 =
      Except.ok (audioKey "p1" "e1") ∧
    (stepDownloadAudio ⟨"e1", "p1", "http://audio"⟩ refetchEnv blobPresentState).1.r2.get
      (audioKey "p1" "e1") = some 999 := by
  refine ⟨rfl, rfl, rfl, by decide⟩

/-- C4 amended: the download step performs exactly one fetch call on every
invocation — it never checks whether a blob already exists at the
deterministic key — and on a successful fetch it returns that key with the
fetched body stored there (overwriting any previous blob). -/
theorem stepDownloadAudio_always_fetches (p : EpisodePayload) (env : RunEnv)
    (st : RunState) :
    (stepDownloadAudio p env st).1.fetchCalls = st.fetchCalls + 1 ∧
    (∀ n, env.fetchBody = some n →
      (stepDownloadAudio p env st).2 = Except.ok (audioKey p.podcastId p.episodeId) ∧
      (stepDownloadAudio p env st).1.r2.get (audioKey p.podcastId p.episodeId)
        = some n) ∧
    (env.fetchBody = none →
      (stepDownloadAudio p env st).2 = Except.error "Download failed") := by
  refine ⟨?_, ?_, ?_⟩
  · unfold stepDownloadAudio
    cases env.fetchBody <;> rfl
  · intro n hn
    unfold stepDownloadAudio
    rw [hn]
    refine ⟨rfl, ?_⟩
    show R2State.get (R2State.put _ (audioKey p.podcastId p.episodeId) n)
      (audioKey p.podcastId p.episodeId) = some n
    unfold R2State.get R2State.put
    rw [List.find?_cons_of_pos _ (by simp)]
    rfl
  · intro hn
    unfold stepDownloadAudio
    rw [hn]

/-- Witness for the amended C4 statement at a concrete input. -/
theorem stepDownloadAudio_always_fetches_witness :
    (stepDownloadAudio ⟨"e1", "p1", "http://audio"⟩ refetchEnv blobPresentState).1.fetchCalls
      = blobPresentState.fetchCalls + 1 ∧
    (stepDownloadAudio ⟨"e1", "p1", "http://audio"⟩ refetchEnv blobPresentState).2 =
      Except.ok (audioKey "p1" "e1") := by
  have h := stepDownloadAudio_always_fetches ⟨"e1", "p1", "http://audio"⟩
    refetchEnv blobPresentState
  exact ⟨h.1, (h.2.1 999 rfl).1⟩

/-- Witness for C5 at `S = 5`, `C = 2`: three ranges `[0,2) [2,4) [4,5)`. -/
theorem chunkRanges_correct_witness :
    (chunkRanges 5 2).length = (5 + 2 - 1) / 2 ∧
    chunkRanges 5 2 = [(0, 2), (2, 4), (4, 5)] := by
  have h := chunkRanges_correct 5 2 (by decide) (by decide)
  exact ⟨h.1, by decide⟩

/-- Concrete responses for the C10 witness: the first chunk's reply carries
no duration at all, the second a real one. -/
def durationlessResponses : List WhisperResponse :=
  [{ text := some "a",
     segments := [{ words := some [{ word := "w", start := 0, «end» := 1 }] }],
     duration := none },
   { text := some "b", segments := [], duration := some 5 }]

/-- Witness for C10 at a concrete input: the first chunk's effective
duration is 30, it is the entry the later chunk's offset sums over, and the
stored total is the rounded sum of effective durations. -/
theorem missingDuration_defaults_to_thirty_witness :
    (transcribeResult (durationlessResponses.get ⟨0, by decide⟩)).duration = 30 ∧
    ((durationlessResponses.map transcribeResult).map (fun t => t.duration))[0]?
      = some 30 ∧
    (((durationlessResponses.map transcribeResult).take 2).map
      (fun t => t.duration))[0]? = some 30 ∧
    storedDurationSeconds (durationlessResponses.map transcribeResult) =
      jsRound (sumDur (durationlessResponses.map transcribeResult)) := by
  have h := missingDuration_defaults_to_thirty durationlessResponses 0 (by decide)
    (Or.inl rfl)
  exact ⟨h.1, h.2.1, h.2.2.1 2 (by decide) (by decide), h.2.2.2⟩

end ManosphereReport
